import Mathlib

/-!
Verification development for the CatanTournamentBot repository
(`game_monitor.py`, `main.py`, `colonist_intercept.py`).

Python dictionaries are modelled as insertion-ordered association lists
(`List (κ × ν)`): `dlookup` is `d[k]` / `d.get(k)`, `dinsert` is
`d[k] = v` (overwriting in place, appending when fresh, as CPython does),
`dpop` is `d.pop(k, None)`, `dgetD` is `d.get(k, default)`.
Python exceptions (`KeyError` from `d[k]`, `ValueError` from `int(s)`) are
modelled by `Option`: `none` means the call raised.
-/

namespace CatanBot

/-- `d.get(k)` on a Python dict: first (and only) binding of the key. -/
def dlookup {κ ν : Type} [DecidableEq κ] : List (κ × ν) → κ → Option ν
  | [], _ => none
  | (k, v) :: rest, key => if k = key then some v else dlookup rest key

/-- `d[k] = v` on a Python dict: overwrite in place if the key is present
(a dict holds each key at most once, so replacing the first binding is
overwriting the binding), otherwise append (CPython preserves insertion
order). -/
def dinsert {κ ν : Type} [DecidableEq κ] : List (κ × ν) → κ → ν → List (κ × ν)
  | [], k, v => [(k, v)]
  | (a, b) :: rest, k, v =>
    if a = k then (k, v) :: rest else (a, b) :: dinsert rest k v

/-- `d.pop(k, None)` on a Python dict: remove the binding if present. -/
def dpop {κ ν : Type} [DecidableEq κ] : List (κ × ν) → κ → List (κ × ν)
  | [], _ => []
  | (a, b) :: rest, k => if a = k then dpop rest k else (a, b) :: dpop rest k

/-- `d.get(k, default)` on a Python dict. -/
def dgetD {κ ν : Type} [DecidableEq κ] (l : List (κ × ν)) (k : κ) (d : ν) : ν :=
  (dlookup l k).getD d

/-! ## Scoring Extractor (`game_monitor.py`) -/

/-- A victory-point breakdown: Colonist stores victory points as a
dict from string category keys to integer counts. -/
abbrev VPDict := List (String × Int)

/-- The nested `player['state']` dict: `color` and `victoryPointsState`
sub-fields, each possibly absent. -/
structure PlayerState where
  color : Option Int
  victoryPointsState : Option VPDict
  deriving DecidableEq

/-- The nested `player['userState']` dict: the `username` sub-field,
possibly absent. -/
structure UserState where
  username : Option String
  deriving DecidableEq

/-- One entry of the raw state's player list; the `state` and `userState`
sub-dicts may be absent. -/
structure RawPlayer where
  state : Option PlayerState
  userState : Option UserState
  deriving DecidableEq

/-- The raw game state read from `window.uiGameManager.gameState`:
a `players` list (possibly absent) and the `isGameOver` flag
(absent modelled as `false`, matching Python truthiness of
`game_state.get('isGameOver')`). -/
structure RawGameState where
  players : Option (List RawPlayer)
  isGameOver : Bool
  deriving DecidableEq

/-- `ColonistMonitor._calc_victory_points`: fixed multiplier table
`{'0': 1, '1': 2, '2': 1, '3': 2, '4': 2}`, iterated in insertion order,
accumulating `vp_dict.get(key, 0) * multiplier`. -/
def multipliers : List (String × Int) :=
  [("0", 1), ("1", 2), ("2", 1), ("3", 2), ("4", 2)]

def calc_victory_points (vp_dict : VPDict) : Int :=
  multipliers.foldl (fun pts km => pts + dgetD vp_dict km.1 0 * km.2) 0

/-- The loop body of `ColonistMonitor._calculate_victory_points`:
`player['userState']` and `player['state']` raise `KeyError` when absent
(modelled `none`); `.get('username', "Unknown")` and
`.get('victoryPointsState', {})` substitute defaults. -/
def calcVPLoop : List RawPlayer → List (String × Int) → Option (List (String × Int))
  | [], output => some output
  | player :: rest, output =>
    match player.userState with
    | none => none
    | some us =>
      match player.state with
      | none => none
      | some st =>
        let username := us.username.getD "Unknown"
        let vp_dict := st.victoryPointsState.getD []
        calcVPLoop rest (dinsert output username (calc_victory_points vp_dict))

/-- `ColonistMonitor._calculate_victory_points(game_state)`:
returns `{username: vps}`; `game_state.get('players', [])` defaults to the
empty list. `none` means the Python code raised. -/
def calculate_victory_points (game_state : RawGameState) : Option (List (String × Int)) :=
  calcVPLoop (game_state.players.getD []) []

/-- The loop body of `ColonistMonitor.get_player_names`:
`p['state']['color']` raises when `state` or `color` is absent;
`p['userState']` raises when absent;
`.get('username', f"Color{color}")` substitutes the synthesized name. -/
def namesLoop : List RawPlayer → List (Int × String) → Option (List (Int × String))
  | [], names => some names
  | p :: rest, names =>
    match p.state with
    | none => none
    | some st =>
      match st.color with
      | none => none
      | some color =>
        match p.userState with
        | none => none
        | some us =>
          let username := us.username.getD ("Color" ++ toString color)
          namesLoop rest (dinsert names color username)

/-- `ColonistMonitor.get_player_names(game_state)`: returns `{color: username}`.
The argument is an `Option` because the Python code first checks
`if not game_state` (a `None` argument is `none` here); `.get('players', [])`
defaults to the empty list. -/
def get_player_names (game_state : Option RawGameState) : Option (List (Int × String)) :=
  match game_state with
  | none => some []
  | some gs => namesLoop (gs.players.getD []) []

/-- The per-player sum written out literally as the spec states it:
Σ over categories '0'..'4' of `count * multiplier` with the table
{0:1, 1:2, 2:1, 3:2, 4:2}, a missing category contributing 0.
(Spec-side definition, to be compared with `calc_victory_points`.) -/
def specCategorySum (vp : VPDict) : Int :=
  dgetD vp "0" 0 * 1 + dgetD vp "1" 0 * 2 + dgetD vp "2" 0 * 1 +
    dgetD vp "3" 0 * 2 + dgetD vp "4" 0 * 2

/-- The raw state of the spec's worked example: one player, color 0,
username "Alice", breakdown {"0": 2, "1": 1}. -/
def aliceState : RawGameState :=
  { players := some [{ state := some { color := some 0,
                                       victoryPointsState := some [("0", 2), ("1", 1)] },
                       userState := some { username := some "Alice" } }],
    isGameOver := false }

/-- A raw state whose single player entry lacks both the `state` and the
`userState` sub-dicts: `player['userState']` / `p['state']` raise `KeyError`
on it. -/
def badState : RawGameState :=
  { players := some [{ state := none, userState := none }], isGameOver := false }

/-- A raw state whose single player has its sub-dicts present but with
`username` and `victoryPointsState` absent: the extractors substitute the
neutral defaults ("Unknown" / `Color0` / zero points). -/
def defaultsState : RawGameState :=
  { players := some [{ state := some { color := some 0, victoryPointsState := none },
                       userState := some { username := none } }],
    isGameOver := false }

/-- The sub-fields whose absence the extractors survive on a player entry:
`userState` present, `state` present, and (for `get_player_names`) its
`color` present. Everything else may be absent. -/
def wellFormedPlayer (p : RawPlayer) : Bool :=
  p.userState.isSome &&
    (match p.state with
     | none => false
     | some st => st.color.isSome)

/-! ## End-game scoring (`main.py`, `post_final_results`) -/

/-- One value of the `end_game_state['players']` dict: the
`victoryPoints` sub-dict (read with `[...]`, so absence raises) and the
`winningPlayer` flag (read with `.get(..., False)`). -/
structure EndPlayerInfo where
  victoryPoints : Option VPDict
  winningPlayer : Option Bool
  deriving DecidableEq

/-- `end_game_state['players']`: a dict from color-code strings to
per-player records. -/
abbrev EndGamePlayers := List (String × EndPlayerInfo)

/-- `monitor.player_names.get(color_int, f"Color{color_int}")`: resolve a
color code through the name mapping captured at watch start, falling back
to the synthesized label. -/
def resolveName (player_names : List (Int × String)) (color : Int) : String :=
  (dlookup player_names color).getD ("Color" ++ toString color)

/-- The value of a decimal digit character: its distance from the code
point of '0', for the ten characters in that range. -/
def digitVal? (c : Char) : Option Nat :=
  if '0' ≤ c ∧ c ≤ '9' then some (c.toNat - 48) else none

/-- Accumulate a decimal numeral; `none` on any non-digit character. -/
def pyIntDigits : List Char → Nat → Option Nat
  | [], n => some n
  | c :: rest, n =>
    match digitVal? c with
    | none => none
    | some d => pyIntDigits rest (n * 10 + d)

/-- Python's `int(s)` on the plain decimal strings used as color keys:
an optional leading minus sign and at least one digit; anything else
raises `ValueError` (modelled `none`). -/
def pyInt (s : String) : Option Int :=
  match s.data with
  | [] => none
  | '-' :: [] => none
  | '-' :: rest => (pyIntDigits rest 0).map (fun n => -(n : Int))
  | cs => (pyIntDigits cs 0).map (fun n => (n : Int))

/-- The scoring loop of `post_final_results` in `main.py`:
`int(color_str)` raises on a non-numeric key (modelled `none`),
`player_info['victoryPoints']` raises when absent, the winner flag defaults
to `False`, and the same `_calc_victory_points` multiplier table is applied. -/
def finalResultsLoop (player_names : List (Int × String)) :
    EndGamePlayers → List (String × Int × Bool) → Option (List (String × Int × Bool))
  | [], final_results => some final_results
  | (color_str, player_info) :: rest, final_results =>
    match pyInt color_str with
    | none => none
    | some color_int =>
      let username := resolveName player_names color_int
      let winner := player_info.winningPlayer.getD false
      match player_info.victoryPoints with
      | none => none
      | some vd =>
        finalResultsLoop player_names rest
          (final_results ++ [(username, calc_victory_points vd, winner)])

/-- The end-game scoring variant: builds the `final_results` list of
`(displayName, points, isWinner)` triples from `end_game_state['players']`
and the previously captured name mapping. -/
def post_final_results_scores (end_players : EndGamePlayers)
    (player_names : List (Int × String)) : Option (List (String × Int × Bool)) :=
  finalResultsLoop player_names end_players []

/-- The end-game state of the spec's worked example: color "0", username
omitted, breakdown {"0": 3, "3": 1}, winner flag set. -/
def bobEndPlayers : EndGamePlayers :=
  [("0", { victoryPoints := some [("0", 3), ("3", 1)], winningPlayer := some true })]

/-- The previously captured name mapping of the worked example. -/
def bobNames : List (Int × String) := [(0, "Bob")]

/-! ## ColonistMonitor state (`game_monitor.py`) -/

/-- The mutable fields of a `ColonistMonitor` instance that the watch
methods touch (`options`/`driver`/`db` handles are opaque external
resources; `thread_starts` counts `threading.Thread(...).start()` calls). -/
structure MonitorFields where
  monitoring : Bool
  game_id : Option String
  end_game_state : Option EndGamePlayers
  player_names : List (Int × String)
  state_log : List (String × RawGameState)
  latest_update_time : Int
  max_wait_seconds : Int
  thread_starts : Nat
  deriving DecidableEq

/-- `ColonistMonitor.watch_game(game_id)`: when `self.monitoring` is set it
prints and returns immediately; otherwise it records the game id, flips
`monitoring` on, and starts the background monitor thread. -/
def watch_game_method (self : MonitorFields) (game_id : String) : MonitorFields :=
  if self.monitoring then self
  else { self with game_id := some game_id, monitoring := true,
                   thread_starts := self.thread_starts + 1 }

/-- `ColonistMonitor._calculate_victory_points` as an explicit state
transformer over the monitor's fields and its argument: the method body
only reads `game_state` and builds a fresh local `output` dict — it
contains no assignment to `self` and no mutation of `game_state` — so the
embedding returns both alongside the result. -/
def calculate_victory_points_run (self : MonitorFields) (game_state : RawGameState) :
    Option (List (String × Int)) × MonitorFields × RawGameState :=
  (calculate_victory_points game_state, self, game_state)

/-- A monitor that is already running a watch. -/
def busyMonitor : MonitorFields :=
  { monitoring := true, game_id := some "abc", end_game_state := none,
    player_names := [(0, "Alice")], state_log := [("play", aliceState)],
    latest_update_time := 7, max_wait_seconds := 300, thread_starts := 1 }

/-! ## Watch Session Registry (`main.py` globals and commands) -/

/-- `MAX_HISTORY = 100`: keep only the last 100 completed games. -/
def MAX_HISTORY : Nat := 100

/-- One value of `completed_history`: `{"results": ..., "timestamp": ...,
"channel_id": ...}`. -/
structure GameRecord where
  results : List (String × Int × Bool)
  timestamp : Int
  channel_id : Nat
  deriving DecidableEq

/-- The two history globals of `main.py`: the `completed_history` dict and
the `recent_game_ids` recency list. -/
structure HistoryState where
  completed_history : List (String × GameRecord)
  recent_game_ids : List String
  deriving DecidableEq

/-- The empty history the module starts with. -/
def emptyHistory : HistoryState :=
  { completed_history := [], recent_game_ids := [] }

/-- `store_completed_game(game_id, results, channel_id)`: insert into
`completed_history`, append to `recent_game_ids`, and when the list
exceeds `MAX_HISTORY`, `pop(0)` the oldest id and `pop` it from the dict. -/
def store_completed_game (st : HistoryState) (game_id : String) (rec : GameRecord) :
    HistoryState :=
  let ch := dinsert st.completed_history game_id rec
  let recent := st.recent_game_ids ++ [game_id]
  if MAX_HISTORY < recent.length then
    { completed_history := dpop ch (recent.headD ""),
      recent_game_ids := recent.drop 1 }
  else
    { completed_history := ch, recent_game_ids := recent }

/-- The `recent_game_ids` component of one `store_completed_game` call:
append the id, then drop the oldest one when the bound is exceeded. -/
def recentStep (r : List String) (g : String) : List String :=
  if MAX_HISTORY < (r ++ [g]).length then (r ++ [g]).drop 1 else r ++ [g]

/-- The `recent_game_ids` component of a run of `store_completed_game`
over a list of ids: it depends only on the previous list and the new ids. -/
def recentAfter (r : List String) (ids : List String) : List String :=
  ids.foldl recentStep r

/-- The reply sent by the `!watch` command. -/
inductive WatchReply
  | alreadyActive
  | alreadyCompleted
  | started
  deriving DecidableEq

/-- The module-level stores of `main.py` that the `!watch` command touches:
`active_monitors` (game id ↦ channel id; the monitor object itself is an
opaque resource), the history globals, and a count of monitor threads
started. -/
structure BotState where
  active_monitors : List (String × Nat)
  history : HistoryState
  threads_started : Nat
  deriving DecidableEq

/-- `if game_id.startswith("#"): game_id = game_id[1:]`: drop a single
leading `#` from the typed id. -/
def stripHash (s : String) : String :=
  match s.data with
  | '#' :: rest => String.mk rest
  | _ => s

/-- The `!watch` command (`watch_game` in `main.py`): strip a leading `#`,
refuse when the id is already in `active_monitors`, refuse when it is in
`completed_history`, and otherwise create a monitor, start the watch
thread, and register the id. -/
def watch_game_cmd (st : BotState) (game_id : String) (channel_id : Nat) :
    WatchReply × BotState :=
  let gid := stripHash game_id
  if (dlookup st.active_monitors gid).isSome then
    (WatchReply.alreadyActive, st)
  else if (dlookup st.history.completed_history gid).isSome then
    (WatchReply.alreadyCompleted, st)
  else
    (WatchReply.started,
     { st with active_monitors := dinsert st.active_monitors gid channel_id,
               threads_started := st.threads_started + 1 })

/-- A bot state with one active watch, on game id "g". -/
def botStateActiveG : BotState :=
  { active_monitors := [("g", 1)], history := emptyHistory, threads_started := 1 }

/-- A bot state with game id "h" in the completed history only. -/
def botStateDoneH : BotState :=
  { active_monitors := [],
    history := { completed_history := [("h", { results := [], timestamp := 0, channel_id := 1 })],
                 recent_game_ids := ["h"] },
    threads_started := 0 }

/-! ## The Watch Loop (`ColonistMonitor._monitor_game`) -/

/-- One iteration's worth of remote reads inside the polling loop:
either the three `execute_script` reads succeed — yielding the game state,
the current phase, and the two `time.time()` values taken at the
transition-record point and at the stall check — or some read raises. -/
inductive PollObs
  | ok (game_state : RawGameState) (current_state : String) (t_change t_check : Int)
  | exc (msg : String)
  deriving DecidableEq

/-- The deterministic environment a run of `_monitor_game` observes:
how many times the `uiGameManager` probe fails before succeeding
(30 or more means it never appears within the bound), the initial clock
and initial reads, the value of `window.endGameState` once read, and the
finite sequence of polling iterations the run is given. -/
structure MonitorEnv where
  attempts_needed : Nat
  t_start : Int
  init_current_state : String
  init_game_state : RawGameState
  window_end_game_state : Option EndGamePlayers
  polls : List PollObs
  deriving DecidableEq

/-- Which exit the watch loop took. `fuelExhausted` marks a run whose
environment script ran out while the `while True:` loop was still going —
the loop has not terminated, so the `finally:` block has not run. -/
inductive MonitorOutcome
  | gameOverExit
  | timeoutExit
  | handleNeverDefined
  | exceptionCaught
  | fuelExhausted
  deriving DecidableEq

/-- The observable result of a `_monitor_game` run: the exit taken, the
final `self.monitoring` flag, how many times `driver.quit()` was called,
the accumulated `state_log`, and the captured `end_game_state`. -/
structure MonitorRun where
  outcome : MonitorOutcome
  monitoring : Bool
  quit_calls : Nat
  state_log : List (String × RawGameState)
  end_game_state : Option EndGamePlayers
  deriving DecidableEq

/-- The `while True:` polling loop (lines 99–132 of `game_monitor.py`):
game-over check, phase-transition recording (`latest_update_time` reset and
log append), stall-timeout check `time.time() - latest_update_time >
max_wait_seconds` with `max_wait_seconds = 300`, else next iteration.
An `exc` observation is an `execute_script` raise, caught by the outer
`except`. -/
def pollLoop (env : MonitorEnv) :
    List PollObs → String → Int → List (String × RawGameState) →
    MonitorOutcome × List (String × RawGameState) × Option EndGamePlayers
  | [], _, _, log => (MonitorOutcome.fuelExhausted, log, none)
  | PollObs.exc _ :: _, _, _, log => (MonitorOutcome.exceptionCaught, log, none)
  | PollObs.ok gs curr t1 t2 :: rest, prev, latest, log =>
    if gs.isGameOver then
      (MonitorOutcome.gameOverExit, log, env.window_end_game_state)
    else
      let latest2 := if curr ≠ prev then t1 else latest
      let log2 := if curr ≠ prev then log ++ [(curr, gs)] else log
      let prev2 := if curr ≠ prev then curr else prev
      if (300 : Int) < t2 - latest2 then (MonitorOutcome.timeoutExit, log2, none)
      else pollLoop env rest prev2 latest2 log2

/-- The `try:` body of `_monitor_game`: the bounded wait for the
`uiGameManager` handle (`max_attempts = 30`), the initial reads (including
`get_player_names`, whose raise the outer `except` would catch), then the
polling loop. -/
def monitorBody (env : MonitorEnv) :
    MonitorOutcome × List (String × RawGameState) × Option EndGamePlayers :=
  if 30 ≤ env.attempts_needed then
    (MonitorOutcome.handleNeverDefined, [], none)
  else
    match get_player_names (some env.init_game_state) with
    | none => (MonitorOutcome.exceptionCaught, [], none)
    | some _ =>
      pollLoop env env.polls env.init_current_state env.t_start
        [(env.init_current_state, env.init_game_state)]

/-- The `finally:` block of `_monitor_game`: once the body has terminated
(any outcome but `fuelExhausted`), `self.monitoring = False` runs and
`driver.quit()` is called exactly once when a driver exists. While the loop
is still running (`fuelExhausted`), neither has happened. -/
def finishRun (driver_present : Bool)
    (body : MonitorOutcome × List (String × RawGameState) × Option EndGamePlayers) :
    MonitorRun :=
  if body.1 = MonitorOutcome.fuelExhausted then
    { outcome := body.1, monitoring := true, quit_calls := 0,
      state_log := body.2.1, end_game_state := body.2.2 }
  else
    { outcome := body.1, monitoring := false,
      quit_calls := if driver_present then 1 else 0,
      state_log := body.2.1, end_game_state := body.2.2 }

/-- `ColonistMonitor._monitor_game`, run against a deterministic
environment (with `db = None`, as `main.py` constructs the monitor). -/
def monitor_game (driver_present : Bool) (env : MonitorEnv) : MonitorRun :=
  finishRun driver_present (monitorBody env)

/-- An environment in which the handle appears at once, no phase
transition ever happens, and the stall check observes an elapsed time of
301 seconds: the run must exit through the timeout path. -/
def timeoutEnv : MonitorEnv :=
  { attempts_needed := 0, t_start := 0, init_current_state := "play",
    init_game_state := { players := some [], isGameOver := false },
    window_end_game_state := none,
    polls := [PollObs.ok { players := some [], isGameOver := false } "play" 100 301] }

/-! ## Script Rewriter (`colonist_intercept.py`, `expose_game_data`) -/

/-- Python text is a sequence of code points. -/
abbrev PyStr := List Char

/-- `s.replace(old, new, 1)` for a nonempty `old`: replace the leftmost
occurrence of `old`, leave `s` unchanged when `old` does not occur.
(The two patch literals below are nonempty; Python's empty-pattern edge
case is not needed.) -/
def replaceFirst : PyStr → PyStr → PyStr → PyStr
  | [], _, _ => []
  | c :: cs, pat, rep =>
    if pat.isPrefixOf (c :: cs) then rep ++ (c :: cs).drop pat.length
    else c :: replaceFirst cs pat rep

/-- `pat in s` on Python strings: some suffix of `s` starts with `pat`. -/
def containsSub : PyStr → PyStr → Bool
  | [], pat => pat.isEmpty
  | c :: cs, pat => pat.isPrefixOf (c :: cs) || containsSub cs pat

/-- First patch: search literal. -/
def patch1_search : PyStr := "this.forceHideAds=!1,this.uiGameManager=e,".toList

/-- First patch: replacement literal. -/
def patch1_replace : PyStr :=
  "this.forceHideAds=1,window.uiGameManager=e,this.uiGameManager=e,".toList

/-- Second patch: search literal. -/
def patch2_search : PyStr := "this.endGameState=t,this.isReplayAvailable=i,".toList

/-- Second patch: replacement literal. -/
def patch2_replace : PyStr :=
  "this.endGameState=t,this.isReplayAvailable=i,window.endGameState=t,".toList

/-- `len(new_body_str.encode('utf-8'))`: the byte length of the re-encoded
body, which the interceptor writes into `Content-Length`. -/
def utf8Len (s : PyStr) : Nat := (s.map Char.utf8Size).sum

/-- The intercepted response as the interceptor sees it: its status code,
the decoded text of its body (the `decode(...).decode('utf-8', ...)` of
the transport bytes), and the two headers the interceptor touches. -/
structure WResponse where
  status_code : Nat
  body : PyStr
  contentEncoding : Option String
  contentLength : Option String
  deriving DecidableEq

/-- `expose_game_data(request, response)` from `colonist_intercept.py`.
`url_matches` is the result of the `"colonist.io/dist/" in request.url`
and vendor-filename regex test. On a matching 200 response the two literal
patches are applied in order with `replace(..., 1)`, `Content-Encoding` is
deleted (a no-op deletion when absent), and `Content-Length` is rewritten
to the re-encoded body's byte length; any other response passes through
untouched. -/
def expose_game_data (url_matches : Bool) (r : WResponse) : WResponse :=
  if r.status_code = 200 ∧ url_matches then
    let b1 := replaceFirst r.body patch1_search patch1_replace
    let b2 := replaceFirst b1 patch2_search patch2_replace
    { r with body := b2,
             contentEncoding := none,
             contentLength := some (toString (utf8Len b2)) }
  else r

/-- A matching, gzip-encoded 200 response whose body contains neither
patch literal. -/
def plainResponse : WResponse :=
  { status_code := 200, body := "hello".toList,
    contentEncoding := some "gzip", contentLength := some "23" }

/-- 101 distinct game ids for the history-bound witness. -/
def historyWitnessIds : List String :=
  ["g0", "g1", "g2", "g3", "g4", "g5", "g6", "g7", "g8", "g9", "g10", "g11", "g12", "g13", "g14", "g15", "g16", "g17", "g18", "g19", "g20", "g21", "g22", "g23", "g24", "g25", "g26", "g27", "g28", "g29", "g30", "g31", "g32", "g33", "g34", "g35", "g36", "g37", "g38", "g39", "g40", "g41", "g42", "g43", "g44", "g45", "g46", "g47", "g48", "g49", "g50", "g51", "g52", "g53", "g54", "g55", "g56", "g57", "g58", "g59", "g60", "g61", "g62", "g63", "g64", "g65", "g66", "g67", "g68", "g69", "g70", "g71", "g72", "g73", "g74", "g75", "g76", "g77", "g78", "g79", "g80", "g81", "g82", "g83", "g84", "g85", "g86", "g87", "g88", "g89", "g90", "g91", "g92", "g93", "g94", "g95", "g96", "g97", "g98", "g99", "g100"]

/-- A fixed completion record for the history-bound witness. -/
def witnessRecord : GameRecord :=
  { results := [("Alice", 4, true)], timestamp := 0, channel_id := 1 }

end CatanBot

namespace CatanBot

/-! ## Dictionary lemmas -/

theorem dlookup_dinsert {κ ν : Type} [DecidableEq κ] (l : List (κ × ν)) (k : κ) (v : ν)
    (g : κ) : dlookup (dinsert l k v) g = if g = k then some v else dlookup l g := by
  induction l with
  | nil =>
    by_cases h : k = g <;> simp [dinsert, dlookup, h, eq_comm]
  | cons p rest ih =>
    obtain ⟨a, b⟩ := p
    by_cases hak : a = k
    · subst hak
      by_cases hag : a = g
      · simp [dinsert, dlookup, hag, eq_comm]
      · have hga : ¬ g = a := fun h => hag h.symm
        simp [dinsert, dlookup, hag, hga]
    · by_cases hag : a = g
      · subst hag
        simp [dinsert, dlookup, hak]
      · simp [dinsert, dlookup, hak, hag, ih]

theorem dlookup_dpop {κ ν : Type} [DecidableEq κ] (l : List (κ × ν)) (k g : κ) :
    dlookup (dpop l k) g = if g = k then none else dlookup l g := by
  induction l with
  | nil => simp [dpop, dlookup]
  | cons p rest ih =>
    obtain ⟨a, b⟩ := p
    by_cases hak : a = k
    · subst hak
      by_cases hag : g = a
      · subst hag
        simp [dpop, ih]
      · have hag2 : ¬ a = g := fun h => hag h.symm
        simp [dpop, dlookup, hag, hag2, ih]
    · by_cases hag : a = g
      · subst hag
        simp [dpop, dlookup, hak]
      · simp [dpop, dlookup, hak, hag, ih]

/-- Claim C1: the per-player total computed by the Scoring Extractor equals
the literal sum over categories '0'..'4' of `count * multiplier` with the
table {0:1, 1:2, 2:1, 3:2, 4:2}, absent categories contributing 0; and on
the raw state with one player "Alice" with breakdown {"0": 2, "1": 1} the
result is exactly {"Alice": 4}. -/
theorem calc_victory_points_matches_spec_sum :
    (∀ vp : VPDict, calc_victory_points vp = specCategorySum vp) ∧
    calculate_victory_points aliceState = some [("Alice", 4)] := by
  constructor
  · intro vp
    simp [calc_victory_points, specCategorySum, multipliers, List.foldl]
  · decide

/-- Claim C10: `_calc_victory_points` reads its input dict only through
lookups at the string keys '0'..'4'; two breakdowns agreeing there get the
same total, whatever other entries they carry. -/
theorem calc_victory_points_depends_only_on_category_keys
    (d1 d2 : VPDict)
    (h : ∀ k, k ∈ ["0", "1", "2", "3", "4"] → dgetD d1 k 0 = dgetD d2 k 0) :
    calc_victory_points d1 = calc_victory_points d2 := by
  have h0 := h "0" (by simp)
  have h1 := h "1" (by simp)
  have h2 := h "2" (by simp)
  have h3 := h "3" (by simp)
  have h4 := h "4" (by simp)
  simp [calc_victory_points, multipliers, List.foldl, h0, h1, h2, h3, h4]

/-- Witness for C10 at two concrete breakdowns that agree on '0'..'4' but
differ elsewhere. -/
theorem calc_victory_points_depends_only_on_category_keys_witness :
    calc_victory_points [("0", 1), ("7", 99)] = calc_victory_points [("0", 1), ("banana", 5)] :=
  calc_victory_points_depends_only_on_category_keys
    [("0", 1), ("7", 99)] [("0", 1), ("banana", 5)] (by decide)

/-- Claim C9: `watch_game` on a monitor whose `monitoring` flag is already
set returns immediately: every field, including the thread-start count, is
unchanged. -/
theorem watch_game_method_frame_when_monitoring
    (self : MonitorFields) (gid : String) (h : self.monitoring = true) :
    watch_game_method self gid = self := by
  simp [watch_game_method, h]

/-- Witness for C9 on a concrete busy monitor. -/
theorem watch_game_method_frame_when_monitoring_witness :
    watch_game_method busyMonitor "xyz" = busyMonitor :=
  watch_game_method_frame_when_monitoring busyMonitor "xyz" (by decide)

/-- Claim C8: the Scoring Extractor is pure: run as a state transformer it
returns the monitor fields and the input state unchanged, and a second run
on its own output yields the identical result. -/
theorem calculate_victory_points_run_pure_idempotent
    (self : MonitorFields) (gs : RawGameState) :
    (calculate_victory_points_run self gs).2.1 = self ∧
    (calculate_victory_points_run self gs).2.2 = gs ∧
    (calculate_victory_points_run (calculate_victory_points_run self gs).2.1
        (calculate_victory_points_run self gs).2.2).1
      = (calculate_victory_points_run self gs).1 := ⟨rfl, rfl, rfl⟩

/-- The `_calculate_victory_points` loop succeeds whenever every remaining
player has `userState` and `state` present. -/
theorem calcVPLoop_isSome (ps : List RawPlayer) (acc : List (String × Int))
    (h : ∀ p ∈ ps, p.userState.isSome ∧ p.state.isSome) :
    (calcVPLoop ps acc).isSome := by
  induction ps generalizing acc with
  | nil => simp [calcVPLoop]
  | cons p rest ih =>
    obtain ⟨hu, hs⟩ := h p (by simp)
    obtain ⟨us, hus⟩ := Option.isSome_iff_exists.mp hu
    obtain ⟨st, hst⟩ := Option.isSome_iff_exists.mp hs
    simp only [calcVPLoop, hus, hst]
    exact ih _ (fun q hq => h q (by simp [hq]))

/-- The `get_player_names` loop succeeds whenever every remaining player
has `state` (with `color`) and `userState` present. -/
theorem namesLoop_isSome (ps : List RawPlayer) (acc : List (Int × String))
    (h : ∀ p ∈ ps, wellFormedPlayer p = true) :
    (namesLoop ps acc).isSome := by
  induction ps generalizing acc with
  | nil => simp [namesLoop]
  | cons p rest ih =>
    have hp := h p (by simp)
    simp only [wellFormedPlayer, Bool.and_eq_true] at hp
    obtain ⟨hu, hc⟩ := hp
    obtain ⟨us, hus⟩ := Option.isSome_iff_exists.mp hu
    rcases hstv : p.state with _ | st
    · rw [hstv] at hc
      simp at hc
    · rw [hstv] at hc
      obtain ⟨c, hcv⟩ := Option.isSome_iff_exists.mp hc
      simp only [namesLoop, hstv, hcv, hus]
      exact ih _ (fun q hq => h q (by simp [hq]))

/-- Counterexample to claim C3: on a raw state whose player entry lacks the
`state` and `userState` sub-dicts, both extractors raise (`KeyError`),
modelled as `none`. -/
theorem scoring_extractor_raises_on_missing_state :
    calculate_victory_points badState = none ∧
    get_player_names (some badState) = none := by decide

/-- Claim C3, amended: the extractors never raise provided each player
entry carries its `state` (with, for `get_player_names`, its `color`) and
`userState` sub-fields; absence of `username` or `victoryPointsState` is
tolerated through neutral defaults ("Unknown"/"Color<N>" names, zero
points), and a `None` game state is tolerated too. -/
theorem scoring_extractor_total_on_present_subfields
    (gs : RawGameState)
    (h : ∀ p ∈ gs.players.getD [], wellFormedPlayer p = true) :
    (calculate_victory_points gs).isSome ∧
    (get_player_names (some gs)).isSome ∧
    calculate_victory_points defaultsState = some [("Unknown", 0)] ∧
    get_player_names (some defaultsState) = some [(0, "Color0")] ∧
    get_player_names none = some [] := by
  refine ⟨?_, ?_, by decide, by decide, by decide⟩
  · exact calcVPLoop_isSome _ _ (fun p hp => by
      have hw := h p hp
      simp only [wellFormedPlayer, Bool.and_eq_true] at hw
      rcases hstv : p.state with _ | st
      · rw [hstv] at hw
        simp at hw
      · exact ⟨hw.1, by simp [hstv]⟩)
  · exact namesLoop_isSome _ _ h

/-- Witness for C3's amended theorem on the Alice state. -/
theorem scoring_extractor_total_on_present_subfields_witness :
    (calculate_victory_points aliceState).isSome = true :=
  (scoring_extractor_total_on_present_subfields aliceState (by decide)).1

/-- Claim C7: the end-game scoring variant on `{players: {"0":
{victoryPoints: {"0":3, "3":1}, winningPlayer: true}}}` with the captured
mapping `{0: "Bob"}` yields exactly `[("Bob", 5, true)]`; and a color code
absent from the mapping resolves to the synthesized label "Color<N>". -/
theorem post_final_results_scores_bob :
    post_final_results_scores bobEndPlayers bobNames = some [("Bob", 5, true)] ∧
    ∀ (names : List (Int × String)) (c : Int),
      dlookup names c = none → resolveName names c = "Color" ++ toString c := by
  refine ⟨by decide, ?_⟩
  intro names c h
  simp [resolveName, h]

/-- Witness for C7's fallback conjunct at an empty mapping. -/
theorem post_final_results_scores_bob_witness :
    resolveName [] 7 = "Color" ++ toString (7 : Int) :=
  post_final_results_scores_bob.2 [] 7 (by decide)

/-- Claim C5: the `!watch` command refuses an id that is already active
(returning the already-active reply) or already completed (returning the
already-completed reply), leaving every store — including the thread
count — untouched. -/
theorem watch_game_cmd_refuses_duplicate
    (st : BotState) (gid : String) (ch : Nat) :
    ((dlookup st.active_monitors (stripHash gid)).isSome = true →
        watch_game_cmd st gid ch = (WatchReply.alreadyActive, st)) ∧
    (dlookup st.active_monitors (stripHash gid) = none →
      (dlookup st.history.completed_history (stripHash gid)).isSome = true →
        watch_game_cmd st gid ch = (WatchReply.alreadyCompleted, st)) := by
  constructor
  · intro h
    simp [watch_game_cmd, h]
  · intro h1 h2
    simp [watch_game_cmd, h1, h2]

/-- Witness for C5 on concrete states: a second `!watch g` while "g" is
active, and a `!watch h` when "h" is in completed history. -/
theorem watch_game_cmd_refuses_duplicate_witness :
    watch_game_cmd botStateActiveG "g" 2 = (WatchReply.alreadyActive, botStateActiveG) ∧
    watch_game_cmd botStateDoneH "h" 2 = (WatchReply.alreadyCompleted, botStateDoneH) :=
  ⟨(watch_game_cmd_refuses_duplicate botStateActiveG "g" 2).1 (by decide),
   (watch_game_cmd_refuses_duplicate botStateDoneH "h" 2).2 (by decide) (by decide)⟩

/-- When the search literal does not occur in the text,
`replace(old, new, 1)` leaves the text unchanged. -/
theorem replaceFirst_of_not_contains (s pat rep : PyStr)
    (h : containsSub s pat = false) : replaceFirst s pat rep = s := by
  induction s with
  | nil => rfl
  | cons c cs ih =>
    simp only [containsSub, Bool.or_eq_false_iff] at h
    simp [replaceFirst, h.1, ih h.2]

/-- Counterexample to claim C2: on a matching 200 response whose body
contains neither patch literal, the interceptor still deletes the
`Content-Encoding` header and rewrites `Content-Length`. -/
theorem expose_game_data_strips_encoding_without_patch :
    containsSub plainResponse.body patch1_search = false ∧
    containsSub plainResponse.body patch2_search = false ∧
    plainResponse.contentEncoding = some "gzip" ∧
    plainResponse.contentLength = some "23" ∧
    (expose_game_data true plainResponse).contentEncoding = none ∧
    (expose_game_data true plainResponse).contentLength = some "5" := by decide

/-- Claim C2, amended: on a matching 200 response in which neither search
literal occurs, the interceptor returns the decoded body unchanged and
does not raise — but it still unconditionally removes the
`Content-Encoding` header and rewrites `Content-Length` to the re-encoded
body's byte length. -/
theorem expose_game_data_body_unchanged_when_patches_absent
    (r : WResponse) (h200 : r.status_code = 200)
    (h1 : containsSub r.body patch1_search = false)
    (h2 : containsSub r.body patch2_search = false) :
    (expose_game_data true r).body = r.body ∧
    (expose_game_data true r).contentEncoding = none ∧
    (expose_game_data true r).contentLength = some (toString (utf8Len r.body)) := by
  have e1 : replaceFirst r.body patch1_search patch1_replace = r.body :=
    replaceFirst_of_not_contains _ _ _ h1
  have e2 : replaceFirst r.body patch2_search patch2_replace = r.body :=
    replaceFirst_of_not_contains _ _ _ h2
  simp [expose_game_data, h200, e1, e2]

/-- Witness for C2's amended theorem on the concrete plain response. -/
theorem expose_game_data_body_unchanged_when_patches_absent_witness :
    (expose_game_data true plainResponse).body = plainResponse.body :=
  (expose_game_data_body_unchanged_when_patches_absent plainResponse rfl
    (by decide) (by decide)).1

/-- Claim C4: whichever terminal path a `_monitor_game` run takes —
game over, stall timeout, the handle never appearing, or a caught
exception — the `finally:` block leaves `monitoring` false and calls
`driver.quit()` exactly once; and in the concrete no-transition
environment whose stall check sees 301s > 300s, the run exits through the
timeout path with that same single release. -/
theorem monitor_game_terminal_paths_release :
    (∀ env : MonitorEnv,
      (monitor_game true env).outcome ≠ MonitorOutcome.fuelExhausted →
        (monitor_game true env).monitoring = false ∧
        (monitor_game true env).quit_calls = 1) ∧
    ((monitor_game true timeoutEnv).outcome = MonitorOutcome.timeoutExit ∧
     (monitor_game true timeoutEnv).monitoring = false ∧
     (monitor_game true timeoutEnv).quit_calls = 1) := by
  constructor
  · intro env h
    by_cases hb : (monitorBody env).1 = MonitorOutcome.fuelExhausted
    · simp [monitor_game, finishRun, hb] at h
    · simp [monitor_game, finishRun, hb]
  · decide

/-- Witness for C4's universal conjunct at the concrete timeout
environment. -/
theorem monitor_game_terminal_paths_release_witness :
    (monitor_game true timeoutEnv).monitoring = false ∧
    (monitor_game true timeoutEnv).quit_calls = 1 :=
  monitor_game_terminal_paths_release.1 timeoutEnv (by decide)


/-- The `recent_game_ids` component of one store call. -/
theorem store_recent (st : HistoryState) (gid : String) (rec : GameRecord) :
    (store_completed_game st gid rec).recent_game_ids
      = recentStep st.recent_game_ids gid := by
  by_cases hc : MAX_HISTORY < (st.recent_game_ids ++ [gid]).length
  · simp only [store_completed_game, recentStep, if_pos hc]
  · simp only [store_completed_game, recentStep, if_neg hc]

/-- The `recent_game_ids` component of a fold of store calls. -/
theorem store_fold_recent (ids : List String) (rec : GameRecord) (st : HistoryState) :
    (ids.foldl (fun s i => store_completed_game s i rec) st).recent_game_ids
      = recentAfter st.recent_game_ids ids := by
  induction ids generalizing st with
  | nil => rfl
  | cons a rest ih =>
    rw [List.foldl_cons, ih, store_recent]
    rfl

/-- While the bound is not hit, the recency list is plain accumulation. -/
theorem recentAfter_no_evict (ids : List String) (r : List String)
    (h : r.length + ids.length ≤ MAX_HISTORY) : recentAfter r ids = r ++ ids := by
  induction ids generalizing r with
  | nil => simp [recentAfter]
  | cons a rest ih =>
    have hstep : recentStep r a = r ++ [a] := by
      have hlen : ¬ MAX_HISTORY < (r ++ [a]).length := by
        rw [List.length_append, List.length_singleton]
        simp only [List.length_cons] at h
        omega
      rw [recentStep, if_neg hlen]
    have hrest : (r ++ [a]).length + rest.length ≤ MAX_HISTORY := by
      simp only [List.length_append, List.length_singleton]
      simp only [List.length_cons] at h
      omega
    calc recentAfter r (a :: rest) = recentAfter (recentStep r a) rest := rfl
      _ = recentAfter (r ++ [a]) rest := by rw [hstep]
      _ = (r ++ [a]) ++ rest := ih _ hrest
      _ = r ++ a :: rest := by simp

/-- After 101 recordings from empty the recency list is exactly the last
100 ids, in order. -/
theorem recentAfter_hundred_one (ids : List String) (h : ids.length = 101) :
    recentAfter [] ids = ids.drop 1 := by
  have hsplit : ids.take 100 ++ ids.drop 100 = ids := List.take_append_drop _ _
  have hlen100 : (ids.take 100).length = 100 := by
    rw [List.length_take]
    omega
  have hlend : (ids.drop 100).length = 1 := by
    rw [List.length_drop, h]
  obtain ⟨x, hx⟩ := List.length_eq_one.mp hlend
  have h1 : recentAfter [] ids = recentAfter (ids.take 100) (ids.drop 100) := by
    conv_lhs => rw [← hsplit]
    rw [recentAfter, List.foldl_append]
    have : recentAfter [] (ids.take 100) = ids.take 100 := by
      have := recentAfter_no_evict (ids.take 100) []
        (by simp [hlen100, MAX_HISTORY])
      simpa using this
    rw [← recentAfter, ← recentAfter, this]
  have hgt : MAX_HISTORY < (ids.take 100 ++ [x]).length := by
    rw [List.length_append, hlen100]
    simp [MAX_HISTORY]
  have hback : ids.take 100 ++ [x] = ids := by
    rw [← hx, hsplit]
  rw [h1, hx]
  calc recentAfter (ids.take 100) [x] = recentStep (ids.take 100) x := rfl
    _ = (ids.take 100 ++ [x]).drop 1 := by rw [recentStep, if_pos hgt]
    _ = ids.drop 1 := by rw [hback]

/-- One store call preserves the registry invariant (no duplicate ids in
the recency list, bounded length, and the dict holding exactly the ids in
the recency list), provided the new id is fresh. -/
theorem store_step_inv (st : HistoryState) (gid : String) (rec : GameRecord)
    (hnd : st.recent_game_ids.Nodup)
    (hlen : st.recent_game_ids.length ≤ MAX_HISTORY)
    (hmem : ∀ g, (dlookup st.completed_history g).isSome = true
        ↔ g ∈ st.recent_game_ids)
    (hfresh : gid ∉ st.recent_game_ids) :
    (store_completed_game st gid rec).recent_game_ids.Nodup ∧
    (store_completed_game st gid rec).recent_game_ids.length ≤ MAX_HISTORY ∧
    (∀ g, (dlookup (store_completed_game st gid rec).completed_history g).isSome = true
        ↔ g ∈ (store_completed_game st gid rec).recent_game_ids) := by
  by_cases hc : MAX_HISTORY < (st.recent_game_ids ++ [gid]).length
  · -- eviction: the recency list already holds MAX_HISTORY ids
    have hlen100 : st.recent_game_ids.length = MAX_HISTORY := by
      rw [List.length_append, List.length_singleton] at hc
      omega
    obtain ⟨h0, t, hht⟩ : ∃ h0 t, st.recent_game_ids = h0 :: t := by
      cases hr : st.recent_game_ids with
      | nil =>
        rw [hr] at hlen100
        simp [MAX_HISTORY] at hlen100
      | cons x xs => exact ⟨x, xs, rfl⟩
    have hs1 : (store_completed_game st gid rec).recent_game_ids = t ++ [gid] := by
      rw [store_recent, recentStep, if_pos hc, hht]
      rfl
    have hs2 : (store_completed_game st gid rec).completed_history
        = dpop (dinsert st.completed_history gid rec) h0 := by
      simp only [store_completed_game, if_pos hc]
      rw [hht]
      simp [List.headD]
    have hh0t : h0 ∉ t := (List.nodup_cons.mp (hht ▸ hnd)).1
    have hndt : t.Nodup := (List.nodup_cons.mp (hht ▸ hnd)).2
    have hgh0 : gid ≠ h0 := by
      intro he
      exact hfresh (by rw [hht, he]; exact List.mem_cons_self _ _)
    have hgt : gid ∉ t := by
      intro he
      exact hfresh (by rw [hht]; exact List.mem_cons_of_mem _ he)
    refine ⟨?_, ?_, ?_⟩
    · rw [hs1]
      rw [List.nodup_append]
      exact ⟨hndt, List.nodup_singleton _, by
        intro x hx hx2
        rw [List.mem_singleton] at hx2
        exact hgt (hx2 ▸ hx)⟩
    · rw [hs1, List.length_append, List.length_singleton]
      have : t.length + 1 = MAX_HISTORY := by
        rw [hht] at hlen100
        simpa using hlen100
      omega
    · intro g
      rw [hs1, hs2, dlookup_dpop, dlookup_dinsert]
      by_cases hgid : g = gid
      · subst hgid
        simp only [if_pos rfl, if_neg hgh0]
        simp
      · by_cases hg0 : g = h0
        · subst hg0
          simp only [if_pos rfl]
          simp only [if_neg (fun he => hgid he)]
          constructor
          · intro hfalse
            simp at hfalse
          · intro hin
            rw [List.mem_append, List.mem_singleton] at hin
            rcases hin with hin | hin
            · exact absurd hin hh0t
            · exact absurd hin.symm (fun he => hgid he.symm)
        · simp only [if_neg hg0, if_neg hgid]
          rw [hmem g, hht]
          rw [List.mem_append, List.mem_singleton, List.mem_cons]
          constructor
          · intro hin
            rcases hin with hin | hin
            · exact absurd hin hg0
            · exact Or.inl hin
          · intro hin
            rcases hin with hin | hin
            · exact Or.inr hin
            · exact absurd hin hgid
  · -- no eviction
    have hs1 : (store_completed_game st gid rec).recent_game_ids
        = st.recent_game_ids ++ [gid] := by
      rw [store_recent, recentStep, if_neg hc]
    have hs2 : (store_completed_game st gid rec).completed_history
        = dinsert st.completed_history gid rec := by
      simp only [store_completed_game, if_neg hc]
    refine ⟨?_, ?_, ?_⟩
    · rw [hs1, List.nodup_append]
      exact ⟨hnd, List.nodup_singleton _, by
        intro x hx hx2
        rw [List.mem_singleton] at hx2
        exact hfresh (hx2 ▸ hx)⟩
    · rw [hs1, List.length_append, List.length_singleton]
      rw [List.length_append, List.length_singleton] at hc
      omega
    · intro g
      rw [hs1, hs2, dlookup_dinsert]
      by_cases hgid : g = gid
      · subst hgid
        simp
      · simp only [if_neg hgid]
        rw [hmem g, List.mem_append, List.mem_singleton]
        constructor
        · intro hin
          exact Or.inl hin
        · intro hin
          rcases hin with hin | hin
          · exact hin
          · exact absurd hin hgid

/-- Folding store calls over fresh, distinct ids keeps the dict holding
exactly the ids of the final recency list. -/
theorem store_fold_inv (ids : List String) (rec : GameRecord) (st : HistoryState)
    (hnd : (st.recent_game_ids ++ ids).Nodup)
    (hlen : st.recent_game_ids.length ≤ MAX_HISTORY)
    (hmem : ∀ g, (dlookup st.completed_history g).isSome = true
        ↔ g ∈ st.recent_game_ids) :
    ∀ g, (dlookup (ids.foldl (fun s i => store_completed_game s i rec) st).completed_history
            g).isSome = true
      ↔ g ∈ (ids.foldl (fun s i => store_completed_game s i rec) st).recent_game_ids := by
  induction ids generalizing st with
  | nil => simpa using hmem
  | cons a rest ih =>
    have hnd_split := List.nodup_append.mp hnd
    have hnd_r : st.recent_game_ids.Nodup := hnd_split.1
    have hfresh : a ∉ st.recent_game_ids := by
      intro hin
      exact hnd_split.2.2 hin (List.mem_cons_self _ _)
    obtain ⟨hnd1, hlen1, hmem1⟩ := store_step_inv st a rec hnd_r hlen hmem hfresh
    have hnd' : ((store_completed_game st a rec).recent_game_ids ++ rest).Nodup := by
      rw [store_recent, recentStep]
      by_cases hc : MAX_HISTORY < (st.recent_game_ids ++ [a]).length
      · rw [if_pos hc]
        have h1 : List.Sublist ((st.recent_game_ids ++ [a]).drop 1 ++ rest)
            ((st.recent_game_ids ++ [a]) ++ rest) :=
          List.Sublist.append_right (List.drop_sublist 1 _) rest
        have h2 : (st.recent_game_ids ++ [a]) ++ rest
            = st.recent_game_ids ++ a :: rest := by
          rw [List.append_assoc]
          rfl
        rw [h2] at h1
        exact List.Nodup.sublist h1 hnd
      · rw [if_neg hc]
        have h2 : (st.recent_game_ids ++ [a]) ++ rest
            = st.recent_game_ids ++ a :: rest := by
          rw [List.append_assoc]
          rfl
        rw [h2]
        exact hnd
    rw [List.foldl_cons]
    exact ih (store_completed_game st a rec) hnd' hlen1 hmem1

/-- Claim C6: recording 101 completions with 101 distinct ids from the
empty registry leaves exactly the 100 most recent ids, in recency order:
the recency list is the input minus its first element, the first-recorded
id is absent from the history dict, the dict holds exactly the retained
ids, and in general one recording never grows the recency list beyond
`MAX_HISTORY`. -/
theorem store_completed_game_bounded_history (ids : List String) (rec : GameRecord)
    (hnd : ids.Nodup) (hlen : ids.length = 101) :
    (ids.foldl (fun s i => store_completed_game s i rec) emptyHistory).recent_game_ids
        = ids.drop 1 ∧
    dlookup (ids.foldl (fun s i => store_completed_game s i rec)
        emptyHistory).completed_history (ids.getD 0 "") = none ∧
    (∀ g, (dlookup (ids.foldl (fun s i => store_completed_game s i rec)
            emptyHistory).completed_history g).isSome = true ↔ g ∈ ids.drop 1) ∧
    (∀ (st : HistoryState) (gid : String),
      st.recent_game_ids.length ≤ MAX_HISTORY →
        (store_completed_game st gid rec).recent_game_ids.length ≤ MAX_HISTORY) := by
  have hrec : (ids.foldl (fun s i => store_completed_game s i rec)
      emptyHistory).recent_game_ids = ids.drop 1 := by
    rw [store_fold_recent]
    have : emptyHistory.recent_game_ids = [] := rfl
    rw [this]
    exact recentAfter_hundred_one ids hlen
  have hmem : ∀ g, (dlookup (ids.foldl (fun s i => store_completed_game s i rec)
      emptyHistory).completed_history g).isSome = true ↔ g ∈ ids.drop 1 := by
    intro g
    have := store_fold_inv ids rec emptyHistory (by simpa [emptyHistory] using hnd)
      (by simp [emptyHistory, MAX_HISTORY]) (by simp [emptyHistory, dlookup]) g
    rw [hrec] at this
    exact this
  refine ⟨hrec, ?_, hmem, ?_⟩
  · obtain ⟨x, xs, hx⟩ : ∃ x xs, ids = x :: xs := by
      cases hids : ids with
      | nil =>
        rw [hids] at hlen
        simp at hlen
      | cons x xs => exact ⟨x, xs, rfl⟩
    have hhead : ids.getD 0 "" = x := by
      rw [hx]
      rfl
    have hnotin : ids.getD 0 "" ∉ ids.drop 1 := by
      rw [hhead, hx]
      exact (List.nodup_cons.mp (hx ▸ hnd)).1
    have h2 := hmem (ids.getD 0 "")
    rcases hval : dlookup (ids.foldl (fun s i => store_completed_game s i rec)
        emptyHistory).completed_history (ids.getD 0 "") with _ | v
    · rfl
    · rw [hval] at h2
      simp only [Option.isSome_some] at h2
      exact absurd (h2.mp trivial) hnotin
  · intro st gid hle
    rw [store_recent, recentStep]
    by_cases hc : MAX_HISTORY < (st.recent_game_ids ++ [gid]).length
    · rw [if_pos hc]
      rw [List.length_drop, List.length_append, List.length_singleton]
      omega
    · rw [if_neg hc]
      rw [List.length_append, List.length_singleton] at hc ⊢
      omega

/-- Witness for C6 at 101 concrete distinct ids. -/
theorem store_completed_game_bounded_history_witness :
    (historyWitnessIds.foldl (fun s i => store_completed_game s i witnessRecord)
        emptyHistory).recent_game_ids = historyWitnessIds.drop 1 :=
  (store_completed_game_bounded_history historyWitnessIds witnessRecord
    (by decide) (by decide)).1

end CatanBot
